import Mathlib

/-!
Verification development for the bz2api.js session-parsing library.

The JavaScript source is shallowly embedded: JS strings are modelled as
lists of UTF-16 code units (`JSString := List Nat`), JS numbers holding
integers as `Int`/`Nat`, absent (`undefined`/`null`) fields as `Option`,
and JS objects as Lean structures.  Every definition below mirrors the
function of the same name in bz2api.js unless its doc comment says it is
a specification-side definition.
-/

namespace BZ2

/-- A JavaScript string, as its sequence of UTF-16 code units. -/
abbrev JSString := List Nat

/-- Convenience conversion from a Lean string literal (all literals used
here are BMP code points, where code points coincide with code units). -/
def jstr (s : String) : JSString := s.data.map Char.toNat

/-- The set of code units trimmed by JavaScript `String.prototype.trim`
(ECMAScript WhiteSpace and LineTerminator). -/
def jsWhitespace (c : Nat) : Bool :=
  c = 9 || c = 10 || c = 11 || c = 12 || c = 13 || c = 32 || c = 160 ||
  c = 5760 || (8192 ≤ c && c ≤ 8202) || c = 8232 || c = 8233 ||
  c = 8239 || c = 8287 || c = 12288 || c = 65279

/-- JavaScript `String.prototype.trim`: drop leading and trailing whitespace. -/
def jsTrim (s : JSString) : JSString :=
  ((s.dropWhile jsWhitespace).reverse.dropWhile jsWhitespace).reverse

/-- The 32-entry cp1252 substitution table for bytes 0x80..0x9F
(`CP1252_MAP` in the source). -/
def CP1252_MAP : List Nat :=
  [0x20AC, 0x0081, 0x201A, 0x0192, 0x201E, 0x2026, 0x2020, 0x2021,
   0x02C6, 0x2030, 0x0160, 0x2039, 0x0152, 0x008D, 0x017D, 0x008F,
   0x0090, 0x2018, 0x2019, 0x201C, 0x201D, 0x2022, 0x2013, 0x2014,
   0x02DC, 0x2122, 0x0161, 0x203A, 0x0153, 0x009D, 0x017E, 0x0178]

/-- Decoding of a single byte under the cp1252 code page: bytes
0x80..0x9F go through `CP1252_MAP`, every other byte is its own code point. -/
def cp1252Unit (b : Nat) : Nat :=
  if 0x80 ≤ b ∧ b ≤ 0x9F then CP1252_MAP.getD (b - 0x80) 0 else b

/-- `decodeCP1252` from the source: decode bytes under cp1252, stopping at
the first zero byte (null terminator). -/
def decodeCP1252 : List Nat → JSString
  | [] => []
  | b :: rest => if b = 0 then [] else cp1252Unit b :: decodeCP1252 rest

/-- Value of a standard base64 alphabet character, if any. -/
def b64Val (c : Nat) : Option Nat :=
  if 65 ≤ c ∧ c ≤ 90 then some (c - 65)
  else if 97 ≤ c ∧ c ≤ 122 then some (c - 71)
  else if 48 ≤ c ∧ c ≤ 57 then some (c + 4)
  else if c = 43 then some 62
  else if c = 47 then some 63
  else none

/-- Reassemble bytes from a list of 6-bit base64 values (forgiving base64:
a trailing group of 2 values yields 1 byte, of 3 values yields 2 bytes). -/
def b64Bytes : List Nat → List Nat
  | v0 :: v1 :: v2 :: v3 :: rest =>
      (v0 * 4 + v1 / 16) :: ((v1 % 16) * 16 + v2 / 4) :: ((v2 % 4) * 64 + v3) ::
        b64Bytes rest
  | [v0, v1] => [v0 * 4 + v1 / 16]
  | [v0, v1, v2] => [v0 * 4 + v1 / 16, (v1 % 16) * 16 + v2 / 4]
  | _ => []

/-- ASCII whitespace stripped by forgiving-base64 decoding. -/
def b64AsciiWs (c : Nat) : Bool := c = 9 || c = 10 || c = 12 || c = 13 || c = 32

/-- Strip one or two trailing padding characters when the length is a
multiple of four (forgiving base64, step 2). -/
def b64StripPad (d : JSString) : JSString :=
  if d.length % 4 = 0 then
    if d.reverse.take 2 = [61, 61] then d.take (d.length - 2)
    else if d.reverse.take 1 = [61] then d.take (d.length - 1)
    else d
  else d

/-- The browser `atob` (WHATWG forgiving-base64 decode); `none` models the
thrown `InvalidCharacterError`. -/
def atob (s : JSString) : Option (List Nat) :=
  let d := b64StripPad (s.filter (fun c => !b64AsciiWs c))
  if d.length % 4 = 1 then none
  else
    let vs := d.map b64Val
    if vs.all Option.isSome then some (b64Bytes (vs.map (fun v => v.getD 0)))
    else none

/-- `decodeBase64Name` from the source: base64-decode, decode cp1252, strip
surrounding whitespace; on a falsy input return the empty string; on a
decode failure return the input unchanged. -/
def decodeBase64Name (n : Option JSString) : JSString :=
  match n with
  | none => []
  | some s =>
    if s = [] then []
    else
      match atob s with
      | some bytes => jsTrim (decodeCP1252 bytes)
      | none => s

/-- `RAKNET_B64_CHARS` from the source, as code units. -/
def RAKNET_B64_CHARS : JSString :=
  jstr (r"@123456789ABCDEFGHIJKLMNOPQRSTUVWXYZabcdefghijklmnopqrstuvwxyz-_")

/-- JavaScript `String.prototype.indexOf` for a single code unit: index of
the first occurrence, or -1. -/
def jsIndexOf (s : JSString) (c : Nat) : Int :=
  if c ∈ s then ((s.findIdx (fun x => x == c) : Nat) : Int) else -1

/-- Loop body of `decodeRakNetGuid`: OR each found alphabet index into the
accumulator at bit position `6 * i`. -/
def rakGuidLoop : JSString → Nat → Nat → Nat
  | [], _, acc => acc
  | c :: rest, i, acc =>
    let idx := jsIndexOf RAKNET_B64_CHARS c
    let acc' := if 0 ≤ idx then acc ||| (idx.toNat <<< (i * 6)) else acc
    rakGuidLoop rest (i + 1) acc'

/-- `decodeRakNetGuid` from the source: `null` for a falsy input
(absent or empty), otherwise the little-endian 6-bit packing of the
alphabet indices (JS BigInt, so arbitrary precision). -/
def decodeRakNetGuid (g : Option JSString) : Option Nat :=
  match g with
  | none => none
  | some s => if s = [] then none else some (rakGuidLoop s 0 0)

/-- Code unit of a single digit in base up to 16 (lowercase letters), as
produced by JavaScript `Number.prototype.toString(radix)`. -/
def digitUnit (d : Nat) : Nat := if d < 10 then 48 + d else 87 + d

/-- Digit expansion (most significant first) with explicit fuel; the fuel
only needs to dominate the number of digits. -/
def natReprAux (base : Nat) : Nat → Nat → List Nat
  | 0, _ => []
  | fuel + 1, n =>
    if n < base then [digitUnit n]
    else natReprAux base fuel (n / base) ++ [digitUnit (n % base)]

/-- JavaScript `n.toString(base)` for a non-negative integer: minimal-length
digit string, lowercase. -/
def jsNatToString (base n : Nat) : JSString := natReprAux base (n + 1) n

/-- JavaScript `String.prototype.padStart(len, pad)` for a one-unit pad. -/
def padStart (s : JSString) (len : Nat) (pad : Nat) : JSString :=
  List.replicate (len - s.length) pad ++ s

/-- JavaScript `BigInt(string)`: whitespace-trimmed; empty means 0; a sign
is allowed on decimal literals; 0x/0o/0b prefixes accepted; anything else
throws (`none`). -/
def hexDigitVal (c : Nat) : Option Nat :=
  if 48 ≤ c ∧ c ≤ 57 then some (c - 48)
  else if 97 ≤ c ∧ c ≤ 102 then some (c - 87)
  else if 65 ≤ c ∧ c ≤ 70 then some (c - 55)
  else none

/-- Value of a nonempty all-digit string in the given base, `none` otherwise. -/
def digitsVal (base : Nat) (t : JSString) : Option Nat :=
  if t ≠ [] ∧ t.all (fun c => ((hexDigitVal c).getD base) < base) then
    some (t.foldl (fun acc c => acc * base + (hexDigitVal c).getD 0) 0)
  else none

def jsBigIntOfString (s : JSString) : Option Int :=
  let t := jsTrim s
  match t with
  | [] => some 0
  | _ =>
    if t.take 2 = jstr (r"0x") ∨ t.take 2 = jstr (r"0X") then
      (digitsVal 16 (t.drop 2)).map Int.ofNat
    else if t.take 2 = jstr (r"0o") ∨ t.take 2 = jstr (r"0O") then
      (digitsVal 8 (t.drop 2)).map Int.ofNat
    else if t.take 2 = jstr (r"0b") ∨ t.take 2 = jstr (r"0B") then
      (digitsVal 2 (t.drop 2)).map Int.ofNat
    else
      match t with
      | 43 :: rest => (digitsVal 10 rest).map Int.ofNat
      | 45 :: rest => (digitsVal 10 rest).map (fun n => -(n : Int))
      | _ => (digitsVal 10 t).map Int.ofNat

/-- `cleanGogId` from the source: parse as BigInt and mask to the low 56
bits (JS `&` on BigInt is two's-complement, i.e. `v mod 2^56` here),
rendered back in decimal; on a parse failure return the input unchanged;
`null` for a falsy input. -/
def cleanGogId (rawGogId : Option JSString) : Option JSString :=
  match rawGogId with
  | none => none
  | some s =>
    if s = [] then none
    else
      match jsBigIntOfString s with
      | some v => some (jsNatToString 10 (v.emod (2 ^ 56)).toNat)
      | none => some s

/-- `STEAM_JOIN_BASE` from the source. -/
def STEAM_JOIN_BASE : JSString :=
  jstr (r"steam://rungame/624970/76561198955218468/-connect-mp%20")

/-- `stringToHex` from the source: each character's code rendered in
lowercase hex, left-padded to at least two digits.  (JS iterates code
points via `Array.from`; all strings reaching this function are BMP-only,
where code points and code units coincide.) -/
def stringToHex (s : JSString) : JSString :=
  (s.map (fun u => padStart (jsNatToString 16 u) 2 48)).flatten

/-- JavaScript `Array.prototype.join(sep)` on a list of strings. -/
def jsJoin (sep : JSString) (parts : List JSString) : JSString :=
  (parts.intersperse sep).flatten

/-- `parseModIds` from the source: split on `;` (code 59), drop empty
tokens; falsy input gives the empty list. -/
def parseModIds (mm : Option JSString) : List JSString :=
  match mm with
  | none => []
  | some s => if s = [] then [] else (List.splitOn 59 s).filter (fun t => t.length > 0)

/-- A raw player record as received from the lobby JSON (short keys). -/
structure RawPlayer where
  n : Option JSString := none
  i : Option JSString := none
  t : Option Int := none
  k : Option Int := none
  d : Option Int := none
  s : Option Int := none
deriving DecidableEq

/-- A raw session record as received from the lobby JSON (short keys). -/
structure RawSession where
  v : Option JSString := none
  g : Option JSString := none
  n : Option JSString := none
  m : Option JSString := none
  mu : Option JSString := none
  gt : Option Int := none
  gtd : Option Int := none
  gtm : Option Int := none
  pm : Option Int := none
  mm : Option JSString := none
  d : Option JSString := none
  t : Option Int := none
  l : Option Int := none
  k : Option Int := none
  h : Option JSString := none
  si : Option Int := none
  tps : Option Int := none
  pg : Option Int := none
  pgm : Option Int := none
  ti : Option Int := none
  ki : Option Int := none
  pl : Option (List RawPlayer) := none
deriving DecidableEq

/-- `buildSteamJoinUrl` from the source: `null` for locked or
password-protected sessions or an empty mod list, otherwise the scheme
prefix plus the hex-encoded comma-joined argument string. -/
def buildSteamJoinUrl (raw : RawSession) : Option JSString :=
  if raw.l = some 1 ∨ raw.k = some 1 then none
  else
    let mods := parseModIds raw.mm
    if mods = [] then none
    else
      let sessionName := decodeBase64Name raw.n
      let modList := jsJoin [59] mods
      let natAddress := raw.g.getD []
      let args :=
        jsJoin [44]
          [jstr (r"N"), jsNatToString 10 sessionName.length, sessionName,
           jsNatToString 10 modList.length, modList, natAddress, jstr (r"0")] ++ [44]
      some (STEAM_JOIN_BASE ++ stringToHex args)

/-- `buildSteamProfileUrl` from the source. -/
def buildSteamProfileUrl (steamId : Option JSString) : Option JSString :=
  match steamId with
  | none => none
  | some s =>
    if s = [] then none
    else some (jstr (r"https://steamcommunity.com/profiles/") ++ s ++ jstr (r"/"))

/-- `buildGogProfileUrl` from the source. -/
def buildGogProfileUrl (gogId : Option JSString) : Option JSString :=
  match gogId with
  | none => none
  | some s =>
    if s = [] then none
    else some (jstr (r"https://www.gog.com/u/") ++ s)

/-- `buildWorkshopUrl` from the source: `null` for a falsy or stock id. -/
def buildWorkshopUrl (modId : JSString) : Option JSString :=
  if modId = [] ∨ modId = jstr (r"0") then none
  else some (jstr (r"https://steamcommunity.com/sharedfiles/filedetails/?id=") ++ modId)

/-- Result of `parseNATType`. -/
structure NATInfo where
  id : Option Int
  name : String
  canDirectConnect : Bool
  isSymmetric : Bool
deriving DecidableEq

/-- `NATTypeNames` lookup from the source. -/
def NATTypeName (v : Int) : Option String :=
  if v = 0 then some (r"None")
  else if v = 1 then some (r"Full Cone")
  else if v = 2 then some (r"Address Restricted")
  else if v = 3 then some (r"Port Restricted")
  else if v = 4 then some (r"Symmetric")
  else if v = 5 then some (r"Unknown")
  else if v = 6 then some (r"Detecting...")
  else if v = 7 then some (r"UPnP")
  else none

/-- `parseNATType` from the source. -/
def parseNATType (t : Option Int) : NATInfo :=
  { id := t
    name :=
      match t with
      | some v => (NATTypeName v).getD ((r"Unknown (") ++ toString v ++ (r")"))
      | none => (r"Unknown (undefined)")
    canDirectConnect := decide (t = some 0 ∨ t = some 7)
    isSymmetric := decide (t = some 4) }

/-- Result of `parseGameTypeAndMode`. -/
structure GameInfo where
  gameType : Option String
  gameTypeName : Option String
  gameMode : Option String
  gameModeName : Option String
  isTeamGame : Bool
  respawn : String
  vehicleOnly : Bool
  rawGameType : Option Int
  rawGameSubType : Option Int
deriving DecidableEq

/-- `parseGameTypeAndMode` from the source.  JS `%` is truncating
(`Int.tmod`), `Math.floor(x / 14)` is flooring division (`Int.fdiv`), and
`&` on 32-bit converted values tests bits of the value mod 2^32, which the
`emod` forms below compute exactly. -/
def parseGameTypeAndMode (gt gtd : Option Int) : GameInfo :=
  let base : GameInfo :=
    { gameType := none, gameTypeName := none, gameMode := none, gameModeName := none
      isTeamGame := false, respawn := (r"One"), vehicleOnly := false
      rawGameType := gt, rawGameSubType := gtd }
  if gt = some 1 then
    let r1 := { base with gameType := some (r"DM"), gameTypeName := some (r"Deathmatch") }
    match gtd with
    | none => r1
    | some v =>
      let modeBase := Int.tmod v 14
      let detailed := Int.fdiv v 14
      let detailedFlags := (detailed.emod 256).toNat
      let r2 :=
        if detailed.emod 512 ≥ 256 then { r1 with respawn := (r"Race") }
        else if detailed.emod 1024 ≥ 512 then { r1 with respawn := (r"Any") }
        else r1
      let team := decide (modeBase.emod 2 = 0 ∧ 2 ≤ modeBase ∧ modeBase ≤ 10)
      let r3 := { r2 with isTeamGame := team }
      if detailedFlags = 0 then
        { r3 with
          gameMode := some (if team then (r"TEAM_DM") else (r"DM"))
          gameModeName := some (if team then (r"Team Deathmatch") else (r"Deathmatch")) }
      else if detailedFlags = 1 then
        { r3 with
          gameMode := some (if team then (r"TEAM_KOTH") else (r"KOTH"))
          gameModeName := some (if team then (r"Team King of the Hill") else (r"King of the Hill")) }
      else if detailedFlags = 2 then
        { r3 with
          gameMode := some (if team then (r"TEAM_CTF") else (r"CTF"))
          gameModeName := some (if team then (r"Team Capture the Flag") else (r"Capture the Flag")) }
      else if detailedFlags = 3 then
        { r3 with
          gameMode := some (if team then (r"TEAM_LOOT") else (r"LOOT"))
          gameModeName := some (if team then (r"Team Loot") else (r"Loot")) }
      else if detailedFlags = 5 then
        { r3 with
          gameMode := some (if team then (r"TEAM_RACE") else (r"RACE"))
          gameModeName := some (if team then (r"Team Race") else (r"Race")) }
      else if detailedFlags = 6 then
        { r3 with
          gameMode := some (if team then (r"TEAM_RACE") else (r"RACE"))
          gameModeName := some (if team then (r"Team Race") else (r"Race"))
          vehicleOnly := true }
      else if detailedFlags = 7 then
        { r3 with
          gameMode := some (if team then (r"TEAM_DM") else (r"DM"))
          gameModeName := some (if team then (r"Team Deathmatch") else (r"Deathmatch"))
          vehicleOnly := true }
      else
        { r3 with gameMode := some (r"DM"), gameModeName := some (r"Deathmatch") }
  else if gt = some 2 then
    let r1 := { base with gameType := some (r"STRAT"), gameTypeName := some (r"Strategy") }
    match gtd with
    | none => r1
    | some v =>
      let modeBase := Int.tmod v 14
      if modeBase = 11 then
        { r1 with
          gameMode := some (r"FFA"), gameModeName := some (r"Free for All")
          isTeamGame := false }
      else if modeBase = 12 then
        { r1 with
          gameMode := some (r"STRAT"), gameModeName := some (r"Team Strategy")
          isTeamGame := true }
      else if modeBase = 13 then
        { r1 with
          gameMode := some (r"MPI"), gameModeName := some (r"MPI")
          isTeamGame := true }
      else
        { r1 with gameMode := some (r"STRAT"), gameModeName := some (r"Strategy") }
  else if gt = some 0 then
    { base with gameType := some (r"ALL"), gameTypeName := some (r"All") }
  else base

/-- A mod entry produced by `enrichMods`. -/
structure Mod where
  id : JSString
  name : Option JSString
  workshopUrl : Option JSString
deriving DecidableEq

/-- `enrichMods` from the source. -/
def enrichMods (modIds : List JSString) : List Mod :=
  modIds.map (fun id =>
    { id := id
      name := if id = jstr (r"0") then some (jstr (r"Stock")) else none
      workshopUrl := buildWorkshopUrl id })

/-- Result of `parseTimeLimit`. -/
structure TimeLimitInfo where
  unlimited : Bool
  minutes : Option Int
  maxedOut : Bool
deriving DecidableEq

/-- `parseTimeLimit` from the source (255 is the saturation sentinel). -/
def parseTimeLimit (gtm : Option Int) : TimeLimitInfo :=
  if gtm = some 255 then { unlimited := true, minutes := none, maxedOut := true }
  else { unlimited := false, minutes := gtm, maxedOut := false }

/-- A normalized player record (`parsePlayer` output). -/
structure Player where
  name : JSString
  rawId : Option JSString
  steamId : Option JSString
  gogId : Option JSString
  gogIdRaw : Option JSString
  platform : Option String
  profileUrl : Option JSString
  kills : Option Int
  deaths : Option Int
  score : Option Int
  teamSlot : Option Int
  team : Option Int
  isTeamLeader : Bool
  isCommander : Bool
  teamIndex : Option Int
  isHost : Bool
  isHidden : Bool
deriving DecidableEq

/-- The initial player record built by `parsePlayer` before the
platform/hidden/team/commander steps (the object literal in the source;
mutations follow as explicit steps).  Code units: `'S'` is 83, `'G'` is
71; the team-slot sentinel is 255. -/
def playerInit (rawPlayer : RawPlayer) (index : Nat) : Player :=
  { name := decodeBase64Name rawPlayer.n
    rawId := rawPlayer.i
    steamId := none, gogId := none, gogIdRaw := none
    platform := none, profileUrl := none
    kills := rawPlayer.k, deaths := rawPlayer.d, score := rawPlayer.s
    teamSlot := rawPlayer.t
    team := none, isTeamLeader := false, isCommander := false, teamIndex := none
    isHost := decide (index = 0), isHidden := false }

/-- Platform-id step of `parsePlayer`: split the raw id into a one-unit
platform tag and the id value, filling the Steam or GOG fields. -/
def playerIdStep (rawPlayer : RawPlayer) (base : Player) : Player :=
  match rawPlayer.i with
  | some (c :: rest) =>
    if c = 83 then
      { base with
        steamId := some rest, platform := some (r"Steam")
        profileUrl := buildSteamProfileUrl (some rest) }
    else if c = 71 then
      let cleaned := cleanGogId (some rest)
      { base with
        gogId := cleaned, gogIdRaw := some rest, platform := some (r"GOG")
        profileUrl := buildGogProfileUrl cleaned }
    else base
  | _ => base

/-- Hidden-flag step of `parsePlayer`: hidden iff the slot is absent or
the 255 sentinel. -/
def playerHiddenStep (p1 : Player) : Player :=
  if p1.teamSlot = none ∨ p1.teamSlot = some 255 then { p1 with isHidden := true }
  else p1

/-- Team-assignment step of `parsePlayer`. -/
def playerTeamStep (isTeamGame : Bool) (isMPI : Bool) (p2 : Player) : Player :=
  match p2.teamSlot with
  | some slot =>
    if slot = 255 then p2
    else if isTeamGame ∧ ¬ isMPI then
      if 1 ≤ slot ∧ slot ≤ 5 then
        { p2 with
          team := some 1, teamIndex := some (slot - 1)
          isTeamLeader := decide (slot = 1) }
      else if 6 ≤ slot ∧ slot ≤ 10 then
        { p2 with
          team := some 2, teamIndex := some (slot - 6)
          isTeamLeader := decide (slot = 6) }
      else p2
    else if isMPI then
      { p2 with
        team := some 1, teamIndex := some (slot - 1)
        isTeamLeader := decide (slot = 1) }
    else p2
  | none => p2

/-- Commander step of `parsePlayer`: in the strategy-oriented modes the
commander is the team leader. -/
def playerCommanderStep (gameMode : Option String) (p3 : Player) : Player :=
  if gameMode = some (r"STRAT") ∨ gameMode = some (r"MPI") ∨ gameMode = some (r"TEAM_STRAT")
  then { p3 with isCommander := p3.isTeamLeader }
  else p3

/-- `parsePlayer` from the source: the object literal followed by its four
in-place mutation blocks, in source order. -/
def parsePlayer (rawPlayer : RawPlayer) (index : Nat) (isTeamGame : Bool)
    (isMPI : Bool) (gameMode : Option String) : Player :=
  playerCommanderStep gameMode
    (playerTeamStep isTeamGame isMPI
      (playerHiddenStep (playerIdStep rawPlayer (playerInit rawPlayer index))))

/-- Result of `parseSessionState`. -/
structure StateInfo where
  state : String
  stateDetail : String
  serverInfoMode : Option Int
  hasOpenSlots : Bool
deriving DecidableEq

/-- Stat check inside `parseSessionState`: a stat counts when it is present
and nonzero (JS truthiness of the number plus the explicit `!== 0`). -/
def hasInGameStats (players : List Player) : Bool :=
  players.any (fun p =>
    (match p.score with | some v => decide (v ≠ 0) | none => false) ||
    (match p.kills with | some v => decide (v ≠ 0) | none => false) ||
    (match p.deaths with | some v => decide (v ≠ 0) | none => false))

/-- `parseSessionState` from the source (ServerInfoMode: 0 unknown,
1 open-waiting, 2 closed-waiting, 3 open-playing, 4 closed-playing,
5 exiting). -/
def parseSessionState (si : Option Int) (players : List Player) : StateInfo :=
  let pair : String × String :=
    if si = some 0 then ((r"Unknown"), (r"unknown"))
    else if si = some 1 ∨ si = some 2 then
      if hasInGameStats players then ((r"InGame"), (r"playing"))
      else ((r"PreGame"), if si = some 1 then (r"waiting") else (r"full"))
    else if si = some 3 ∨ si = some 4 then
      ((r"InGame"), if si = some 3 then (r"playing") else (r"full"))
    else if si = some 5 then ((r"PostGame"), (r"exiting"))
    else ((r"Unknown"), (r"unknown"))
  { state := pair.1, stateDetail := pair.2, serverInfoMode := si
    hasOpenSlots := decide (si = some 1 ∨ si = some 3) }

/-- JavaScript `x || null` for an optional string: a falsy value (absent
or empty) becomes `null`. -/
def jsOrNullStr (x : Option JSString) : Option JSString :=
  match x with
  | some s => if s = [] then none else some s
  | none => none

/-- JavaScript `x || null` for an optional number: absent or zero becomes
`null`. -/
def jsOrNullInt (x : Option Int) : Option Int :=
  match x with
  | some v => if v = 0 then none else some v
  | none => none

/-- The VSR balance mod id (`VSR_MOD_ID` in the source). -/
def VSR_MOD_ID : JSString := jstr (r"1325933293")

/-- A fully normalized session record (`parseSession` output).  The
`timeElapsedMinutes` field is the JS union `string | number | undefined`
(`Sum.inl` is the saturated marker string). -/
structure Session where
  id : Option JSString
  guid : Option JSString
  name : JSString
  version : Option JSString
  gameType : Option String
  gameTypeName : Option String
  gameMode : Option String
  gameModeName : Option String
  isTeamGame : Bool
  respawn : String
  vehicleOnly : Bool
  rawGameType : Option Int
  rawGameSubType : Option Int
  gameBalance : Option String
  gameBalanceName : Option String
  mapFile : Option JSString
  mapUrl : Option JSString
  players : List Player
  playerCount : Nat
  maxPlayers : Option Int
  commanders : List JSString
  hiddenPlayers : List JSString
  mods : List Mod
  primaryMod : JSString
  modHash : Option JSString
  isStock : Bool
  state : String
  stateDetail : String
  serverInfoMode : Option Int
  hasOpenSlots : Bool
  isLocked : Bool
  hasPassword : Bool
  motd : Option JSString
  nat : NATInfo
  steamJoinUrl : Option JSString
  tps : Option Int
  maxPing : Option Int
  worstPingObserved : Option Int
  gameTimeMinutes : Option Int
  timeElapsedMinutes : Sum JSString (Option Int)
  timeLimitMinutes : Option Int
  killLimit : Option Int
  _raw : RawSession
deriving DecidableEq

/-- `parseSession` from the source. -/
def parseSession (raw : RawSession) : Session :=
  let gameInfo := parseGameTypeAndMode raw.gt raw.gtd
  let isMPI := decide (gameInfo.gameMode = some (r"MPI"))
  let players := (raw.pl.getD []).enum.map (fun pr =>
    parsePlayer pr.2 pr.1 gameInfo.isTeamGame isMPI gameInfo.gameMode)
  let stateInfo := parseSessionState raw.si players
  let natInfo := parseNATType raw.t
  let timeLimitInfo := parseTimeLimit raw.gtm
  let modIds := parseModIds raw.mm
  let mods := enrichMods modIds
  let guidBigInt := decodeRakNetGuid raw.g
  let steamJoinUrl := buildSteamJoinUrl raw
  let commanders := (players.filter (fun p => p.isCommander)).map (fun p => p.name)
  let hiddenPlayers := (players.filter (fun p => p.isHidden)).map (fun p => p.name)
  let isVSR := modIds.contains VSR_MOD_ID
  { id := raw.g
    guid :=
      match guidBigInt with
      | some v => if v = 0 then none else some (padStart (jsNatToString 16 v) 16 48)
      | none => none
    name := decodeBase64Name raw.n
    version := raw.v
    gameType := gameInfo.gameType
    gameTypeName := gameInfo.gameTypeName
    gameMode := gameInfo.gameMode
    gameModeName := gameInfo.gameModeName
    isTeamGame := gameInfo.isTeamGame
    respawn := gameInfo.respawn
    vehicleOnly := gameInfo.vehicleOnly
    rawGameType := gameInfo.rawGameType
    rawGameSubType := gameInfo.rawGameSubType
    gameBalance := if isVSR then some (r"VSR") else none
    gameBalanceName := if isVSR then some (r"Vet Strategy Recycler Variant") else none
    mapFile := raw.m
    mapUrl := jsOrNullStr raw.mu
    players := players
    playerCount := players.length
    maxPlayers := raw.pm
    commanders := commanders
    hiddenPlayers := hiddenPlayers
    mods := mods
    primaryMod := modIds.headD (jstr (r"0"))
    modHash := raw.d
    isStock := decide (modIds = [] ∨ modIds = [jstr (r"0")])
    state := stateInfo.state
    stateDetail := stateInfo.stateDetail
    serverInfoMode := stateInfo.serverInfoMode
    hasOpenSlots := stateInfo.hasOpenSlots
    isLocked := decide (raw.l = some 1)
    hasPassword := decide (raw.k = some 1)
    motd := jsOrNullStr raw.h
    nat := natInfo
    steamJoinUrl := steamJoinUrl
    tps := raw.tps
    maxPing := raw.pgm
    worstPingObserved := raw.pg
    gameTimeMinutes := raw.gtm
    timeElapsedMinutes :=
      if timeLimitInfo.maxedOut then Sum.inl (jstr (r">255")) else Sum.inr raw.gtm
    timeLimitMinutes := jsOrNullInt raw.ti
    killLimit := jsOrNullInt raw.ki
    _raw := raw }

/-- Lexicographic code-unit comparison `a ≤ b`, modelling
`a.localeCompare(b) <= 0` under code-unit collation (the sort keys are
ASCII identity tokens, on which the default collation is a total order
that coincides with equality on ties). -/
def lexLe : List Nat → List Nat → Bool
  | [], _ => true
  | _ :: _, [] => false
  | a :: as, b :: bs => if a < b then true else if b < a then false else lexLe as bs

/-- Stable insertion of an element into a sorted list: the new element goes
before the first element it is `le`-below-or-tied-with never crossing an
equal key (matching ECMAScript's stable `Array.prototype.sort`). -/
def insertLe (le : α → α → Bool) (a : α) : List α → List α
  | [] => [a]
  | b :: bs => if le a b then a :: b :: bs else b :: insertLe le a bs

/-- Stable sort by a boolean `le`, modelling `Array.prototype.sort` with a
consistent comparator (ECMAScript requires a stable sort; any stable sort
yields this same result). -/
def sortByLe (le : α → α → Bool) : List α → List α
  | [] => []
  | a :: as => insertLe le a (sortByLe le as)

/-- The comparator used in `fetchSessions`:
`(a, b) => a.id.localeCompare(b.id)` (an absent id would throw in JS; the
model totalizes it with the empty string). -/
def sessionLe (a b : Session) : Bool := lexLe (a.id.getD []) (b.id.getD [])

/-- The parse-and-sort stage of `fetchSessions`:
`rawData.GET.map(parseSession)` followed by `sessions.sort(...)`. -/
def assembleSessions (rawList : List RawSession) : List Session :=
  sortByLe sessionLe (rawList.map parseSession)

/-- Player entry stored in the data cache. -/
structure CachePlayer where
  id : JSString
  steamId : Option JSString
  gogId : Option JSString
  platform : Option String
  profileUrl : Option JSString
deriving DecidableEq

/-- Mod entry stored in the data cache. -/
structure CacheMod where
  id : JSString
  name : Option JSString
  workshopUrl : Option JSString
deriving DecidableEq

/-- The data cache: JS plain objects used as string-keyed maps, modelled as
association lists in insertion order. -/
structure DataCache where
  players : List (JSString × CachePlayer)
  mods : List (JSString × CacheMod)
deriving DecidableEq

/-- The key under which a player is cached:
`player.steamId || player.gogId`, where an empty string is falsy;
`none` when that expression is falsy (such players are skipped). -/
def playerKeyOf (p : Player) : Option JSString :=
  match jsOrNullStr p.steamId with
  | some s => some s
  | none => jsOrNullStr p.gogId

/-- The cache entry built for a player stored under key `k`. -/
def cachePlayerOf (k : JSString) (p : Player) : CachePlayer :=
  { id := k
    steamId := p.steamId
    gogId := p.gogId
    platform := p.platform
    profileUrl := p.profileUrl }

/-- The cache entry built for a mod. -/
def cacheModOf (m : Mod) : CacheMod :=
  { id := m.id, name := m.name, workshopUrl := m.workshopUrl }

/-- Inner player loop of `buildDataCache`: insert each keyed player unless
the key is already present. -/
def addPlayers (m : List (JSString × CachePlayer)) (ps : List Player) :
    List (JSString × CachePlayer) :=
  ps.foldl (fun m p =>
    match playerKeyOf p with
    | some k => if (m.lookup k).isSome then m else m ++ [(k, cachePlayerOf k p)]
    | none => m) m

/-- Inner mod loop of `buildDataCache`: insert each mod unless its id is
already present. -/
def addMods (m : List (JSString × CacheMod)) (ms : List Mod) :
    List (JSString × CacheMod) :=
  ms.foldl (fun m md =>
    if (m.lookup md.id).isSome then m else m ++ [(md.id, cacheModOf md)]) m

/-- `buildDataCache` from the source: one forward pass over the sessions,
collecting unique players and unique mods. -/
def buildDataCache (sessions : List Session) : DataCache :=
  sessions.foldl (fun acc s =>
    { players := addPlayers acc.players s.players
      mods := addMods acc.mods s.mods }) ⟨[], []⟩

/-- Specification-side: the join-URL argument string as the spec words it,
`"N,<nameLen>,<name>,<modListLen>,<modList>,<natAddress>,0,"` with decimal
lengths of the immediately following fields and the raw identity token
(44 is `,`, 78 is `N`, 48 is `0`). -/
def joinUrlArgs (raw : RawSession) : JSString :=
  let name := decodeBase64Name raw.n
  let modList := jsJoin [59] (parseModIds raw.mm)
  let natAddress := raw.g.getD []
  [78, 44] ++ jsNatToString 10 name.length ++ [44] ++ name ++ [44] ++
    jsNatToString 10 modList.length ++ [44] ++ modList ++ [44] ++
    natAddress ++ [44, 48, 44]

/-- Specification-side: the hex encoding claimed by the spec, every
character as exactly two lowercase hex digits. -/
def twoDigitHex (s : JSString) : JSString :=
  (s.map (fun u => [digitUnit (u / 16 % 16), digitUnit (u % 16)])).flatten

/-- Specification-side: the 6-bit value a character contributes under the
fixed alphabet (0 for characters outside the alphabet). -/
def rakIdxVal (c : Nat) : Nat :=
  if c ∈ RAKNET_B64_CHARS then RAKNET_B64_CHARS.findIdx (fun x => x == c) else 0

/-- Specification-side: little-endian 6-bit packing — the character at
string index `i` contributes its alphabet index at bit `6 * i`. -/
def rakSpecSum (token : JSString) : Nat :=
  (token.enum.map (fun pr => rakIdxVal pr.2 * 2 ^ (6 * pr.1))).sum

/-- Claim C8: `parseGameTypeAndMode` applied to gameType 1 and packed
sub-type 7267 yields a non-team deathmatch classification with the
vehicle-only flag set and respawn policy any-type. -/
theorem c8_mode_7267 :
    (parseGameTypeAndMode (some 1) (some 7267)).isTeamGame = false ∧
    (parseGameTypeAndMode (some 1) (some 7267)).gameMode = some (r"DM") ∧
    (parseGameTypeAndMode (some 1) (some 7267)).gameModeName = some (r"Deathmatch") ∧
    (parseGameTypeAndMode (some 1) (some 7267)).vehicleOnly = true ∧
    (parseGameTypeAndMode (some 1) (some 7267)).respawn = (r"Any") := by
  refine ⟨?_, ?_, ?_, ?_, ?_⟩ <;> decide

/-- Claim C5: `buildSteamJoinUrl` returns null exactly when the session is
locked, password-protected, or its parsed mod-id list is empty; in all
other cases a URL string is returned.  The iff over an arbitrary raw
session captures independence from all other fields. -/
theorem c5_join_url_null_iff (raw : RawSession) :
    buildSteamJoinUrl raw = none ↔
      raw.l = some 1 ∨ raw.k = some 1 ∨ parseModIds raw.mm = [] := by
  unfold buildSteamJoinUrl
  by_cases h1 : raw.l = some 1 ∨ raw.k = some 1
  · simp only [if_pos h1, true_iff]
    tauto
  · simp only [if_neg h1]
    by_cases h2 : parseModIds raw.mm = []
    · simp [h2, h1]
    · simp [h2, h1]

/-- `decodeCP1252` maps the prefix before the first zero byte through the
code page. -/
theorem decodeCP1252_eq_takeWhile (l : List Nat) :
    decodeCP1252 l = (l.takeWhile (fun b => b ≠ 0)).map cp1252Unit := by
  induction l with
  | nil => rfl
  | cons b rest ih =>
    by_cases hb : b = 0
    · simp [decodeCP1252, hb]
    · simp [decodeCP1252, hb, ih]

/-- Claim C7: for every byte sequence containing a zero byte, the
legacy-text decoder returns exactly the prefix before the first zero byte,
decoded under the code page (bytes 0x80-0x9F through the substitution
table, all other bytes as their literal code point), trimmed of
surrounding whitespace. -/
theorem c7_legacy_text_stops_at_zero (bytes : List Nat) (_mem : 0 ∈ bytes) :
    jsTrim (decodeCP1252 bytes) =
      jsTrim ((bytes.takeWhile (fun b => b ≠ 0)).map
        (fun b => if 0x80 ≤ b ∧ b ≤ 0x9F then CP1252_MAP.getD (b - 0x80) 0 else b)) := by
  rw [decodeCP1252_eq_takeWhile]
  rfl

/-- Witness for C7 at the byte sequence ` A\0B`. -/
theorem c7_witness :
    (0 ∈ [32, 65, 0, 66]) ∧
      jsTrim (decodeCP1252 [32, 65, 0, 66]) =
        jsTrim (([32, 65, 0, 66].takeWhile (fun b => b ≠ 0)).map
          (fun b => if 0x80 ≤ b ∧ b ≤ 0x9F then CP1252_MAP.getD (b - 0x80) 0 else b)) :=
  ⟨by decide, c7_legacy_text_stops_at_zero [32, 65, 0, 66] (by decide)⟩

/-- Claim C3: for phase code 1 (open-waiting) or 2 (closed-waiting), a
player list in which any player has nonzero kills, deaths, or score makes
`parseSessionState` override the phase to in-game with detail playing,
whichever of the three stats is nonzero. -/
theorem c3_waiting_override (c : Int) (players : List Player)
    (hc : c = 1 ∨ c = 2)
    (hstat : ∃ p ∈ players, ∃ v : Int, v ≠ 0 ∧
      (p.kills = some v ∨ p.deaths = some v ∨ p.score = some v)) :
    (parseSessionState (some c) players).state = (r"InGame") ∧
    (parseSessionState (some c) players).stateDetail = (r"playing") := by
  have hin : hasInGameStats players = true := by
    obtain ⟨p, hp, v, hv, hcase⟩ := hstat
    unfold hasInGameStats
    rw [List.any_eq_true]
    refine ⟨p, hp, ?_⟩
    rcases hcase with h | h | h <;> rw [h] <;> simp [hv]
  unfold parseSessionState
  rcases hc with rfl | rfl <;> simp [hin]

/-- Witness for C3: an open-waiting session with a single five-kill player. -/
theorem c3_witness :
    (parseSessionState (some 1) [parsePlayer { k := some 5 } 0 false false none]).state
      = (r"InGame") ∧
    (parseSessionState (some 1) [parsePlayer { k := some 5 } 0 false false none]).stateDetail
      = (r"playing") :=
  c3_waiting_override 1 [parsePlayer { k := some 5 } 0 false false none]
    (Or.inl rfl)
    ⟨parsePlayer { k := some 5 } 0 false false none, by simp, 5, by decide,
      Or.inl (by decide)⟩

/-- The platform-id step leaves the team placement fields unchanged. -/
theorem playerIdStep_proj (rp : RawPlayer) (b : Player) :
    (playerIdStep rp b).teamSlot = b.teamSlot ∧
    (playerIdStep rp b).team = b.team ∧
    (playerIdStep rp b).teamIndex = b.teamIndex ∧
    (playerIdStep rp b).isTeamLeader = b.isTeamLeader ∧
    (playerIdStep rp b).isHidden = b.isHidden := by
  unfold playerIdStep
  rcases rp.i with _ | ⟨_ | ⟨c, rest⟩⟩ <;> dsimp only
  · exact ⟨rfl, rfl, rfl, rfl, rfl⟩
  · exact ⟨rfl, rfl, rfl, rfl, rfl⟩
  · split_ifs <;> exact ⟨rfl, rfl, rfl, rfl, rfl⟩

/-- The hidden-flag step: team fields unchanged, hidden flag set exactly
on an absent or sentinel slot. -/
theorem playerHiddenStep_proj (p : Player) :
    (playerHiddenStep p).teamSlot = p.teamSlot ∧
    (playerHiddenStep p).team = p.team ∧
    (playerHiddenStep p).teamIndex = p.teamIndex ∧
    (playerHiddenStep p).isTeamLeader = p.isTeamLeader ∧
    (playerHiddenStep p).isHidden =
      (decide (p.teamSlot = none ∨ p.teamSlot = some 255) || p.isHidden) := by
  unfold playerHiddenStep
  split_ifs with h
  · simp [h]
  · simp [h]

/-- The commander step leaves the team placement fields unchanged. -/
theorem playerCommanderStep_proj (gm : Option String) (p : Player) :
    (playerCommanderStep gm p).teamSlot = p.teamSlot ∧
    (playerCommanderStep gm p).team = p.team ∧
    (playerCommanderStep gm p).teamIndex = p.teamIndex ∧
    (playerCommanderStep gm p).isTeamLeader = p.isTeamLeader ∧
    (playerCommanderStep gm p).isHidden = p.isHidden := by
  unfold playerCommanderStep
  split_ifs <;> exact ⟨rfl, rfl, rfl, rfl, rfl⟩

/-- The team step never changes the hidden flag or the slot. -/
theorem playerTeamStep_stable (tg mpi : Bool) (p : Player) :
    (playerTeamStep tg mpi p).isHidden = p.isHidden ∧
    (playerTeamStep tg mpi p).teamSlot = p.teamSlot := by
  unfold playerTeamStep
  rcases hslot : p.teamSlot with _ | slot <;> dsimp only
  · exact ⟨rfl, hslot⟩
  · split_ifs <;> first | exact ⟨rfl, rfl⟩ | exact ⟨rfl, hslot⟩

/-- Team step, non-coop team game, slot in 1..5: team 1. -/
theorem playerTeamStep_team1 (p : Player) (s : Int) (h : p.teamSlot = some s)
    (h1 : 1 ≤ s) (h5 : s ≤ 5) :
    (playerTeamStep true false p).team = some 1 ∧
    (playerTeamStep true false p).teamIndex = some (s - 1) ∧
    (playerTeamStep true false p).isTeamLeader = decide (s = 1) := by
  unfold playerTeamStep
  rw [h]
  dsimp only
  rw [if_neg (by omega : ¬ s = 255), if_pos ⟨rfl, by simp⟩, if_pos ⟨h1, h5⟩]
  exact ⟨rfl, rfl, rfl⟩

/-- Team step, non-coop team game, slot in 6..10: team 2. -/
theorem playerTeamStep_team2 (p : Player) (s : Int) (h : p.teamSlot = some s)
    (h6 : 6 ≤ s) (h10 : s ≤ 10) :
    (playerTeamStep true false p).team = some 2 ∧
    (playerTeamStep true false p).teamIndex = some (s - 6) ∧
    (playerTeamStep true false p).isTeamLeader = decide (s = 6) := by
  unfold playerTeamStep
  rw [h]
  dsimp only
  rw [if_neg (by omega : ¬ s = 255), if_pos ⟨rfl, by simp⟩,
    if_neg (by omega : ¬ (1 ≤ s ∧ s ≤ 5)), if_pos ⟨h6, h10⟩]
  exact ⟨rfl, rfl, rfl⟩

/-- Team step, non-coop team game, any other non-sentinel slot: no team. -/
theorem playerTeamStep_other (p : Player) (s : Int) (h : p.teamSlot = some s)
    (h255 : s ≠ 255) (hout : ¬ (1 ≤ s ∧ s ≤ 10)) :
    (playerTeamStep true false p).team = p.team ∧
    (playerTeamStep true false p).teamIndex = p.teamIndex := by
  unfold playerTeamStep
  rw [h]
  dsimp only
  rw [if_neg h255, if_pos ⟨rfl, by simp⟩,
    if_neg (by omega : ¬ (1 ≤ s ∧ s ≤ 5)), if_neg (by omega : ¬ (6 ≤ s ∧ s ≤ 10))]
  exact ⟨rfl, rfl⟩

/-- Claim C4: for a player parsed with the team-game flag set and the
cooperative (MPI) flag unset, slots 1-5 give team 1 with index slot-1 and
leadership exactly at slot 1; slots 6-10 give team 2 with index slot-6 and
leadership exactly at slot 6; any other non-sentinel slot leaves the team
unresolved; and the hidden flag holds exactly when the raw slot is absent
or the sentinel 255. -/
theorem c4_team_resolution (rp : RawPlayer) (idx : Nat) (gm : Option String) :
    ((parsePlayer rp idx true false gm).isHidden = true ↔
      (rp.t = none ∨ rp.t = some 255)) ∧
    (∀ s : Int, rp.t = some s → 1 ≤ s → s ≤ 5 →
      (parsePlayer rp idx true false gm).team = some 1 ∧
      (parsePlayer rp idx true false gm).teamIndex = some (s - 1) ∧
      ((parsePlayer rp idx true false gm).isTeamLeader = true ↔ s = 1)) ∧
    (∀ s : Int, rp.t = some s → 6 ≤ s → s ≤ 10 →
      (parsePlayer rp idx true false gm).team = some 2 ∧
      (parsePlayer rp idx true false gm).teamIndex = some (s - 6) ∧
      ((parsePlayer rp idx true false gm).isTeamLeader = true ↔ s = 6)) ∧
    (∀ s : Int, rp.t = some s → s ≠ 255 → ¬ (1 ≤ s ∧ s ≤ 10) →
      (parsePlayer rp idx true false gm).team = none ∧
      (parsePlayer rp idx true false gm).teamIndex = none) := by
  set b := playerInit rp idx with hb
  set q1 := playerIdStep rp b with hq1
  set q2 := playerHiddenStep q1 with hq2
  set q3 := playerTeamStep true false q2 with hq3
  have hpp : parsePlayer rp idx true false gm = playerCommanderStep gm q3 := by
    rw [hq3, hq2, hq1, hb]; rfl
  obtain ⟨hi1, hi2, hi3, hi4, hi5⟩ := playerIdStep_proj rp b
  obtain ⟨hh1, hh2, hh3, hh4, hh5⟩ := playerHiddenStep_proj q1
  obtain ⟨hc1, hc2, hc3, hc4, hc5⟩ := playerCommanderStep_proj gm q3
  obtain ⟨hs1, hs2⟩ := playerTeamStep_stable true false q2
  have hbslot : b.teamSlot = rp.t := by rw [hb]; rfl
  have hbhid : b.isHidden = false := by rw [hb]; rfl
  have hbteam : b.team = none := by rw [hb]; rfl
  have hbidx : b.teamIndex = none := by rw [hb]; rfl
  have hq2slot : q2.teamSlot = rp.t := by rw [hq2, hh1, hi1, hbslot]
  have hq2team : q2.team = none := by rw [hq2, hh2, hi2, hbteam]
  have hq2idx : q2.teamIndex = none := by rw [hq2, hh3, hi3, hbidx]
  refine ⟨?_, ?_, ?_, ?_⟩
  · rw [hpp, hc5, hq3, hs1, hq2, hh5, hi5, hi1, hbslot, hbhid]
    simp
  · intro s hs h1 h5
    obtain ⟨ht1, ht2, ht3⟩ := playerTeamStep_team1 q2 s (by rw [hq2slot, hs]) h1 h5
    rw [hpp, hc2, hc3, hc4, hq3]
    exact ⟨ht1, ht2, by rw [ht3]; simp⟩
  · intro s hs h6 h10
    obtain ⟨ht1, ht2, ht3⟩ := playerTeamStep_team2 q2 s (by rw [hq2slot, hs]) h6 h10
    rw [hpp, hc2, hc3, hc4, hq3]
    exact ⟨ht1, ht2, by rw [ht3]; simp⟩
  · intro s hs h255 hout
    obtain ⟨ht1, ht2⟩ := playerTeamStep_other q2 s (by rw [hq2slot, hs]) h255 hout
    rw [hpp, hc2, hc3, hq3]
    exact ⟨by rw [ht1, hq2team], by rw [ht2, hq2idx]⟩

/-- Witness for C4 at slots 6 (team-2 leader), 255 (hidden) and 11
(unresolved). -/
theorem c4_witness :
    (parsePlayer { t := some 6 } 0 true false none).team = some 2 ∧
    (parsePlayer { t := some 6 } 0 true false none).teamIndex = some 0 ∧
    (parsePlayer { t := some 6 } 0 true false none).isTeamLeader = true ∧
    (parsePlayer { t := some 255 } 0 true false none).isHidden = true ∧
    (parsePlayer { t := some 11 } 0 true false none).team = none := by
  refine ⟨?_, ?_, ?_, ?_, ?_⟩
  · exact ((c4_team_resolution { t := some 6 } 0 none).2.2.1 6 rfl
      (by decide) (by decide)).1
  · have h := ((c4_team_resolution { t := some 6 } 0 none).2.2.1 6 rfl
      (by decide) (by decide)).2.1
    simpa using h
  · exact ((c4_team_resolution { t := some 6 } 0 none).2.2.1 6 rfl
      (by decide) (by decide)).2.2.mpr rfl
  · exact (c4_team_resolution { t := some 255 } 0 none).1.mpr (Or.inr rfl)
  · exact ((c4_team_resolution { t := some 11 } 0 none).2.2.2 11 rfl
      (by decide) (by decide)).1

/-- Lookup after the player-insertion loop: an existing binding is kept;
otherwise the first matching player of the traversed list wins. -/
theorem addPlayers_lookup (ps : List Player) (m : List (JSString × CachePlayer))
    (k : JSString) :
    (addPlayers m ps).lookup k =
      (m.lookup k).or
        ((ps.find? (fun p => playerKeyOf p == some k)).map (fun p => cachePlayerOf k p)) := by
  induction ps generalizing m with
  | nil => simp [addPlayers]
  | cons p ps ih =>
    have hfold : addPlayers m (p :: ps) =
        addPlayers (match playerKeyOf p with
          | some kp => if (m.lookup kp).isSome then m else m ++ [(kp, cachePlayerOf kp p)]
          | none => m) ps := rfl
    rw [hfold]
    rcases hkey : playerKeyOf p with _ | kp
    · dsimp only
      rw [ih]
      simp [hkey]
    · dsimp only
      by_cases hm : (m.lookup kp).isSome
      · rw [if_pos hm, ih]
        by_cases hkk : kp = k
        · subst hkk
          obtain ⟨v, hv⟩ := Option.isSome_iff_exists.mp hm
          simp [hv]
        · simp [hkey, hkk]
      · rw [if_neg hm, ih]
        have hmk : m.lookup kp = none := Option.not_isSome_iff_eq_none.mp hm
        by_cases hkk : kp = k
        · subst hkk
          simp [hkey, List.lookup_append, hmk, List.lookup]
        · have hbeq : (k == kp) = false := by simp [Ne.symm hkk]
          simp [hkey, hkk, List.lookup_append, List.lookup, hbeq]

/-- Lookup after the mod-insertion loop: an existing binding is kept;
otherwise the first matching mod of the traversed list wins. -/
theorem addMods_lookup (ms : List Mod) (m : List (JSString × CacheMod))
    (k : JSString) :
    (addMods m ms).lookup k =
      (m.lookup k).or ((ms.find? (fun md => md.id == k)).map cacheModOf) := by
  induction ms generalizing m with
  | nil => simp [addMods]
  | cons md ms ih =>
    have hfold : addMods m (md :: ms) =
        addMods (if (m.lookup md.id).isSome then m else m ++ [(md.id, cacheModOf md)]) ms :=
      rfl
    rw [hfold]
    by_cases hm : (m.lookup md.id).isSome
    · rw [if_pos hm, ih]
      by_cases hkk : md.id = k
      · obtain ⟨v, hv⟩ := Option.isSome_iff_exists.mp hm
        rw [hkk] at hv
        simp [hv, hkk]
      · simp [hkk]
    · rw [if_neg hm, ih]
      have hmk : m.lookup md.id = none := Option.not_isSome_iff_eq_none.mp hm
      by_cases hkk : md.id = k
      · subst hkk
        simp [List.lookup_append, hmk, List.lookup]
      · have hbeq : (k == md.id) = false := by simp [Ne.symm hkk]
        simp [hkk, List.lookup_append, List.lookup, hbeq]

/-- Player lookup across the session fold of `buildDataCache`. -/
theorem cacheFold_players_lookup (sessions : List Session) (acc : DataCache)
    (k : JSString) :
    ((sessions.foldl (fun acc s =>
        { players := addPlayers acc.players s.players
          mods := addMods acc.mods s.mods }) acc).players).lookup k =
      (acc.players.lookup k).or
        (((sessions.flatMap Session.players).find? (fun p => playerKeyOf p == some k)).map
          (fun p => cachePlayerOf k p)) := by
  induction sessions generalizing acc with
  | nil => simp
  | cons s ss ih =>
    rw [List.foldl_cons, ih]
    dsimp only
    rw [addPlayers_lookup, List.flatMap_cons, List.find?_append]
    rcases hfs : List.find? (fun p => playerKeyOf p == some k) s.players with _ | v <;>
      simp only [hfs, Option.map_none', Option.map_some', Option.none_or, Option.or_none,
        Option.or_some, Option.or_assoc]

/-- Mod lookup across the session fold of `buildDataCache`. -/
theorem cacheFold_mods_lookup (sessions : List Session) (acc : DataCache)
    (k : JSString) :
    ((sessions.foldl (fun acc s =>
        { players := addPlayers acc.players s.players
          mods := addMods acc.mods s.mods }) acc).mods).lookup k =
      (acc.mods.lookup k).or
        (((sessions.flatMap Session.mods).find? (fun md => md.id == k)).map cacheModOf) := by
  induction sessions generalizing acc with
  | nil => simp
  | cons s ss ih =>
    rw [List.foldl_cons, ih]
    dsimp only
    rw [addMods_lookup, List.flatMap_cons, List.find?_append]
    rcases hfs : List.find? (fun md => md.id == k) s.mods with _ | v <;>
      simp only [hfs, Option.map_none', Option.map_some', Option.none_or, Option.or_none,
        Option.or_some, Option.or_assoc]

/-- Claim C10: `buildDataCache` resolves every player platform id and
every mod id to the entry from the key's first occurrence in a single
forward pass over the sessions; later occurrences never overwrite it. -/
theorem c10_first_occurrence_wins (sessions : List Session) (k : JSString) :
    (buildDataCache sessions).players.lookup k =
      ((sessions.flatMap Session.players).find? (fun p => playerKeyOf p == some k)).map
        (fun p => cachePlayerOf k p) ∧
    (buildDataCache sessions).mods.lookup k =
      ((sessions.flatMap Session.mods).find? (fun md => md.id == k)).map cacheModOf := by
  constructor
  · have h := cacheFold_players_lookup sessions ⟨[], []⟩ k
    simpa [buildDataCache] using h
  · have h := cacheFold_mods_lookup sessions ⟨[], []⟩ k
    simpa [buildDataCache] using h

/-- OR-ing a shifted value above the known bits of the accumulator is
addition. -/
theorem lor_shiftLeft_eq_add (a b k : Nat) (h : a < 2 ^ k) :
    a ||| (b <<< k) = a + b * 2 ^ k := by
  rw [Nat.shiftLeft_eq, Nat.lor_comm, Nat.mul_comm b (2 ^ k),
    ← Nat.mul_add_lt_is_or h b]
  ring

/-- Every character contributes an alphabet index below 64. -/
theorem rakIdxVal_lt (c : Nat) : rakIdxVal c < 64 := by
  unfold rakIdxVal
  split_ifs with h
  · have hlen : RAKNET_B64_CHARS.length = 64 := by decide
    have := @List.findIdx_lt_length_of_exists _ (fun x => x == c)
      RAKNET_B64_CHARS ⟨c, h, by simp⟩
    omega
  · omega

/-- The accumulator loop of `decodeRakNetGuid` computes the little-endian
6-bit packing, offset by the starting index. -/
theorem rakGuidLoop_eq (s : JSString) : ∀ (i acc : Nat), acc < 2 ^ (6 * i) →
    rakGuidLoop s i acc =
      acc + ((List.enumFrom i s).map (fun pr => rakIdxVal pr.2 * 2 ^ (6 * pr.1))).sum := by
  induction s with
  | nil => intro i acc _; simp [rakGuidLoop]
  | cons c rest ih =>
    intro i acc hacc
    have hstep : rakGuidLoop (c :: rest) i acc =
        rakGuidLoop rest (i + 1)
          (if 0 ≤ jsIndexOf RAKNET_B64_CHARS c then
            acc ||| ((jsIndexOf RAKNET_B64_CHARS c).toNat <<< (i * 6))
          else acc) := rfl
    have hpow : (2 : Nat) ^ (6 * (i + 1)) = 2 ^ (6 * i) * 64 := by
      have : 6 * (i + 1) = 6 * i + 6 := by ring
      rw [this, pow_add]
      norm_num
    by_cases hc : c ∈ RAKNET_B64_CHARS
    · have hidx : jsIndexOf RAKNET_B64_CHARS c =
          ((RAKNET_B64_CHARS.findIdx (fun x => x == c) : Nat) : Int) := by
        unfold jsIndexOf
        rw [if_pos hc]
      have hval : rakIdxVal c = RAKNET_B64_CHARS.findIdx (fun x => x == c) := by
        unfold rakIdxVal
        rw [if_pos hc]
      have hnneg : (0 : Int) ≤ jsIndexOf RAKNET_B64_CHARS c := by
        rw [hidx]
        exact Int.ofNat_nonneg _
      have htoNat : (jsIndexOf RAKNET_B64_CHARS c).toNat = rakIdxVal c := by
        rw [hidx, hval]
        exact Int.toNat_natCast _
      rw [hstep, if_pos hnneg, htoNat]
      have hcomm : i * 6 = 6 * i := by ring
      rw [hcomm, lor_shiftLeft_eq_add acc (rakIdxVal c) (6 * i) hacc]
      have hlt : rakIdxVal c < 64 := rakIdxVal_lt c
      have hbound : acc + rakIdxVal c * 2 ^ (6 * i) < 2 ^ (6 * (i + 1)) := by
        rw [hpow]
        have h1 : rakIdxVal c * 2 ^ (6 * i) ≤ 63 * 2 ^ (6 * i) :=
          Nat.mul_le_mul_right _ (by omega)
        have h2 : 2 ^ (6 * i) * 64 = 2 ^ (6 * i) + 63 * 2 ^ (6 * i) := by ring
        omega
      rw [ih (i + 1) _ hbound]
      show acc + rakIdxVal c * 2 ^ (6 * i) + _ = _
      rw [List.enumFrom]
      simp only [List.map_cons, List.sum_cons]
      ring
    · have hidx : jsIndexOf RAKNET_B64_CHARS c = -1 := by
        unfold jsIndexOf
        rw [if_neg hc]
      have hval : rakIdxVal c = 0 := by
        unfold rakIdxVal
        rw [if_neg hc]
      rw [hstep, hidx, if_neg (by decide)]
      have hacc' : acc < 2 ^ (6 * (i + 1)) := by
        rw [hpow]
        have : (1 : Nat) * 2 ^ (6 * i) ≤ 64 * 2 ^ (6 * i) :=
          Nat.mul_le_mul_right _ (by omega)
        have h2 : 2 ^ (6 * i) * 64 = 64 * 2 ^ (6 * i) := by ring
        omega
      rw [ih (i + 1) acc hacc']
      rw [List.enumFrom]
      simp only [List.map_cons, List.sum_cons, hval]
      ring

/-- Counterexample for C2 as stated: the fixed alphabet has 64 symbols,
not 65, and holds no digit `0` (code unit 48); index 64 would not fit in
6 bits. -/
theorem c2_alphabet_counterexample :
    RAKNET_B64_CHARS.length = 64 ∧ RAKNET_B64_CHARS.length ≠ 65 ∧
      ¬ (48 ∈ RAKNET_B64_CHARS) :=
  ⟨by decide, by decide, by decide⟩

/-- Claim C2 (amended): `decodeRakNetGuid` reads each character against
the fixed 64-symbol alphabet (sentinel, digits 1-9, uppercase, lowercase,
hyphen, underscore), each found character contributing its 6-bit index at
bit `6 * i` (little-endian across characters); characters outside the
alphabet contribute zero and are skipped; empty input yields an absent
result. -/
theorem c2_raknet_decode :
    (∀ token : JSString,
      decodeRakNetGuid (some token) =
        if token = [] then none else some (rakSpecSum token)) ∧
    decodeRakNetGuid none = none ∧
    RAKNET_B64_CHARS.length = 64 := by
  refine ⟨?_, rfl, by decide⟩
  intro token
  by_cases h : token = []
  · simp [decodeRakNetGuid, h]
  · simp only [decodeRakNetGuid, if_neg h]
    congr 1
    have hloop := rakGuidLoop_eq token 0 0 (by simp)
    rw [hloop]
    simp [rakSpecSum, List.enum]

/-- Digit-count bound: a value below `16 ^ (k + 1)` prints in at most
`k + 1` hex digits, whatever the fuel. -/
theorem natReprAux16_length_le : ∀ (fuel n k : Nat), n < 16 ^ (k + 1) →
    (natReprAux 16 fuel n).length ≤ k + 1 := by
  intro fuel
  induction fuel with
  | zero => intro n k _; simp [natReprAux]
  | succ fuel ih =>
    intro n k h
    rw [natReprAux]
    split_ifs with h16
    · simp
    · have hk : 1 ≤ k := by
        by_contra hk
        have hk0 : k = 0 := by omega
        subst hk0
        simp at h
        omega
      have hdiv : n / 16 < 16 ^ (k - 1 + 1) := by
        have heq : k - 1 + 1 = k := by omega
        rw [heq]
        rw [Nat.div_lt_iff_lt_mul (by norm_num)]
        calc n < 16 ^ (k + 1) := h
        _ = 16 ^ k * 16 := by rw [pow_succ]
      have := ih (n / 16) (k - 1) hdiv
      simp only [List.length_append, List.length_cons, List.length_nil]
      omega

/-- All code units printed in base 16 are lowercase hex digits. -/
theorem natReprAux16_digits : ∀ (fuel n : Nat), ∀ c ∈ natReprAux 16 fuel n,
    (48 ≤ c ∧ c ≤ 57) ∨ (97 ≤ c ∧ c ≤ 102) := by
  intro fuel
  induction fuel with
  | zero => intro n c hc; simp [natReprAux] at hc
  | succ fuel ih =>
    intro n c hc
    rw [natReprAux] at hc
    split_ifs at hc with h16
    · simp at hc
      subst hc
      unfold digitUnit
      split_ifs with h10 <;> omega
    · simp only [List.mem_append, List.mem_cons, List.not_mem_nil, or_false] at hc
      rcases hc with hc | hc
      · exact ih _ c hc
      · subst hc
        unfold digitUnit
        have : n % 16 < 16 := Nat.mod_lt _ (by norm_num)
        split_ifs with h10 <;> omega

/-- Counterexample for C6 as stated: a present identity token (`"@"`,
which decodes to zero) still yields an absent guid, because JS `0n` is
falsy in the `guidBigInt ? … : null` test. -/
theorem c6_guid_zero_counterexample :
    ({ g := some [64] } : RawSession).g ≠ none ∧
    decodeRakNetGuid ({ g := some [64] } : RawSession).g = some 0 ∧
    (parseSession { g := some [64] }).guid = none :=
  ⟨by decide, by decide, by decide⟩

/-- Claim C6 (amended): the session guid is the decoded 64-bit identity
rendered as lowercase hex left-padded to 16 characters whenever the
decoder yields a nonzero value (exactly 16 lowercase hex characters for
values below 2^64); the guid is absent exactly when the raw identity
field is absent, empty, or decodes to zero. -/
theorem c6_guid_rendering (raw : RawSession) :
    ((parseSession raw).guid = none ↔
      (decodeRakNetGuid raw.g = none ∨ decodeRakNetGuid raw.g = some 0)) ∧
    (∀ v : Nat, decodeRakNetGuid raw.g = some v → v ≠ 0 →
      (parseSession raw).guid = some (padStart (jsNatToString 16 v) 16 48) ∧
      (v < 2 ^ 64 →
        (padStart (jsNatToString 16 v) 16 48).length = 16 ∧
        ∀ c ∈ padStart (jsNatToString 16 v) 16 48,
          (48 ≤ c ∧ c ≤ 57) ∨ (97 ≤ c ∧ c ≤ 102))) := by
  have hguid : (parseSession raw).guid =
      (match decodeRakNetGuid raw.g with
        | some v => if v = 0 then none else some (padStart (jsNatToString 16 v) 16 48)
        | none => none) := rfl
  constructor
  · rw [hguid]
    rcases hdec : decodeRakNetGuid raw.g with _ | v
    · simp
    · by_cases hv : v = 0 <;> simp [hv]
  · intro v hdec hv
    rw [hguid, hdec]
    refine ⟨by simp [hv], fun h64 => ⟨?_, ?_⟩⟩
    · have hlen : (jsNatToString 16 v).length ≤ 16 := by
        have h16 : v < 16 ^ (15 + 1) := by
          have : (16 : Nat) ^ 16 = 2 ^ 64 := by norm_num
          omega
        exact natReprAux16_length_le (v + 1) v 15 h16
      simp only [padStart, List.length_append, List.length_replicate]
      omega
    · intro c hc
      simp only [padStart, List.mem_append, List.mem_replicate] at hc
      rcases hc with ⟨_, hc⟩ | hc
      · subst hc; omega
      · exact natReprAux16_digits (v + 1) v c hc

/-- Witness for C6 at the token `"1"`, which decodes to 1. -/
theorem c6_witness :
    (parseSession { g := some (jstr (r"1")) }).guid
      = some (padStart (jsNatToString 16 1) 16 48) ∧
    (padStart (jsNatToString 16 1) 16 48).length = 16 :=
  ⟨((c6_guid_rendering { g := some (jstr (r"1")) }).2 1 (by decide) (by decide)).1,
   (((c6_guid_rendering { g := some (jstr (r"1")) }).2 1 (by decide) (by decide)).2
     (by norm_num)).1⟩

/-- `lexLe` is total. -/
theorem lexLe_total : ∀ a b : List Nat, lexLe a b = true ∨ lexLe b a = true := by
  intro a
  induction a with
  | nil => intro b; left; rfl
  | cons x xs ih =>
    intro b
    cases b with
    | nil => right; rfl
    | cons y ys =>
      simp only [lexLe]
      rcases ih ys with h | h <;> split_ifs <;> simp [h]

/-- `lexLe` is transitive. -/
theorem lexLe_trans : ∀ a b c : List Nat,
    lexLe a b = true → lexLe b c = true → lexLe a c = true := by
  intro a
  induction a with
  | nil => intro b c _ _; rfl
  | cons x xs ih =>
    intro b c hab hbc
    cases b with
    | nil => simp [lexLe] at hab
    | cons y ys =>
      cases c with
      | nil => simp [lexLe] at hbc
      | cons z zs =>
        simp only [lexLe] at hab hbc ⊢
        split_ifs at hab hbc ⊢ <;>
          first
          | rfl
          | omega
          | (exact ih ys zs hab hbc)

/-- `lexLe` is antisymmetric. -/
theorem lexLe_antisymm : ∀ a b : List Nat,
    lexLe a b = true → lexLe b a = true → a = b := by
  intro a
  induction a with
  | nil =>
    intro b _ hba
    cases b with
    | nil => rfl
    | cons y ys => simp [lexLe] at hba
  | cons x xs ih =>
    intro b hab hba
    cases b with
    | nil => simp [lexLe] at hab
    | cons y ys =>
      rcases Nat.lt_trichotomy x y with h | h | h
      · simp [lexLe, h, Nat.lt_asymm h] at hba
      · subst h
        simp only [lexLe, lt_irrefl, if_false] at hab hba
        simp [ih ys hab hba]
      · simp [lexLe, h, Nat.lt_asymm h] at hab

/-- Stable insertion permutes with consing. -/
theorem insertLe_perm {α : Type} (le : α → α → Bool) (a : α) :
    ∀ l : List α, (insertLe le a l).Perm (a :: l) := by
  intro l
  induction l with
  | nil => simp [insertLe]
  | cons b bs ih =>
    rw [insertLe]
    split_ifs
    · exact List.Perm.refl _
    · exact (ih.cons b).trans (List.Perm.swap a b bs)

/-- The stable sort is a permutation of its input. -/
theorem sortByLe_perm {α : Type} (le : α → α → Bool) :
    ∀ l : List α, (sortByLe le l).Perm l := by
  intro l
  induction l with
  | nil => exact List.Perm.refl _
  | cons a as ih =>
    rw [sortByLe]
    exact (insertLe_perm le a (sortByLe le as)).trans (ih.cons a)

/-- Insertion preserves sortedness for a total transitive comparison. -/
theorem insertLe_pairwise {α : Type} (le : α → α → Bool)
    (htot : ∀ x y, le x y = true ∨ le y x = true)
    (htrans : ∀ x y z, le x y = true → le y z = true → le x z = true)
    (a : α) : ∀ l : List α, l.Pairwise (fun x y => le x y = true) →
      (insertLe le a l).Pairwise (fun x y => le x y = true) := by
  intro l
  induction l with
  | nil => intro _; simp [insertLe]
  | cons b bs ih =>
    intro hp
    rw [insertLe]
    rcases List.pairwise_cons.mp hp with ⟨hb, hbs⟩
    split_ifs with hab
    · refine List.pairwise_cons.mpr ⟨?_, hp⟩
      intro x hx
      rcases List.mem_cons.mp hx with rfl | hx
      · exact hab
      · exact htrans a b x hab (hb x hx)
    · refine List.pairwise_cons.mpr ⟨?_, ih hbs⟩
      intro x hx
      have hx' := (insertLe_perm le a bs).mem_iff.mp hx
      rcases List.mem_cons.mp hx' with h | hx'
      · rw [h]
        rcases htot a b with h2 | h2
        · exact absurd h2 hab
        · exact h2
      · exact hb x hx'

/-- The stable sort sorts, for a total transitive comparison. -/
theorem sortByLe_pairwise {α : Type} (le : α → α → Bool)
    (htot : ∀ x y, le x y = true ∨ le y x = true)
    (htrans : ∀ x y z, le x y = true → le y z = true → le x z = true) :
    ∀ l : List α, (sortByLe le l).Pairwise (fun x y => le x y = true) := by
  intro l
  induction l with
  | nil => simp [sortByLe]
  | cons a as ih => exact insertLe_pairwise le htot htrans a _ ih

/-- Two sorted permutations of each other are equal when their keys are
pairwise distinct and ties in the comparison force equal keys. -/
theorem sorted_perm_eq_of_nodup_keys {α β : Type} (le : α → α → Bool) (key : α → β)
    (hanti : ∀ x y, le x y = true → le y x = true → key x = key y) :
    ∀ l₁ l₂ : List α, l₁.Pairwise (fun x y => le x y = true) →
      l₂.Pairwise (fun x y => le x y = true) → l₁.Perm l₂ →
      (l₁.map key).Nodup → l₁ = l₂ := by
  intro l₁
  induction l₁ with
  | nil =>
    intro l₂ _ _ hperm _
    exact hperm.nil_eq
  | cons a t₁ ih =>
    intro l₂ hp1 hp2 hperm hnodup
    cases l₂ with
    | nil => exact absurd hperm (by simp)
    | cons b t₂ =>
      have hnodup' : (key a :: t₁.map key).Nodup := by simpa using hnodup
      by_cases hab : a = b
      · subst hab
        have ht : t₁.Perm t₂ := hperm.cons_inv
        have := ih t₂ (List.pairwise_cons.mp hp1).2 (List.pairwise_cons.mp hp2).2 ht
          (List.nodup_cons.mp hnodup').2
        rw [this]
      · exfalso
        have ha2 : a ∈ b :: t₂ := hperm.mem_iff.mp (List.mem_cons_self a t₁)
        have hat2 : a ∈ t₂ := by
          rcases List.mem_cons.mp ha2 with h | h
          · exact absurd h hab
          · exact h
        have hb1 : b ∈ a :: t₁ := hperm.symm.mem_iff.mp (List.mem_cons_self b t₂)
        have hbt1 : b ∈ t₁ := by
          rcases List.mem_cons.mp hb1 with h | h
          · exact absurd h.symm hab
          · exact h
        have hle1 : le a b = true := (List.pairwise_cons.mp hp1).1 b hbt1
        have hle2 : le b a = true := (List.pairwise_cons.mp hp2).1 a hat2
        have hkey : key a = key b := hanti a b hle1 hle2
        have hmem : key b ∈ t₁.map key := List.mem_map_of_mem key hbt1
        rw [← hkey] at hmem
        exact (List.nodup_cons.mp hnodup').1 hmem

/-- The identity of a parsed session is the raw `g` field. -/
theorem parseSession_id (raw : RawSession) : (parseSession raw).id = raw.g := rfl

/-- Counterexample for C9 as stated: two raw sessions with the same
identity key but different version fields; the stable sort keeps input
order among equal keys, so swapping the input changes the output list. -/
theorem c9_duplicate_id_counterexample :
    assembleSessions
        [{ g := some [65], v := some [49] }, { g := some [65], v := some [50] }] ≠
      assembleSessions
        [{ g := some [65], v := some [50] }, { g := some [65], v := some [49] }] := by
  decide

/-- Claim C9 (amended): parsing a raw collection and sorting by identity
key is invariant under permutation of the input array, provided the
identity keys are present and pairwise distinct.  (With duplicate keys the
ECMAScript sort is stable, so the input order shows through.) -/
theorem c9_sort_permutation_invariant (l₁ l₂ : List RawSession)
    (hperm : l₁.Perm l₂)
    (_hpresent : ∀ r ∈ l₁, r.g ≠ none)
    (hnodup : (l₁.map (fun r => r.g.getD [])).Nodup) :
    assembleSessions l₁ = assembleSessions l₂ := by
  have htot : ∀ x y : Session, sessionLe x y = true ∨ sessionLe y x = true :=
    fun x y => lexLe_total _ _
  have htrans : ∀ x y z : Session, sessionLe x y = true → sessionLe y z = true →
      sessionLe x z = true :=
    fun x y z => lexLe_trans _ _ _
  have hanti : ∀ x y : Session, sessionLe x y = true → sessionLe y x = true →
      (fun s : Session => s.id.getD []) x = (fun s : Session => s.id.getD []) y :=
    fun x y hxy hyx => lexLe_antisymm _ _ hxy hyx
  have hmapkey : ∀ l : List RawSession,
      (l.map parseSession).map (fun s : Session => s.id.getD []) =
        l.map (fun r => r.g.getD []) := by
    intro l
    rw [List.map_map]
    rfl
  unfold assembleSessions
  apply sorted_perm_eq_of_nodup_keys sessionLe (fun s : Session => s.id.getD []) hanti
  · exact sortByLe_pairwise sessionLe htot htrans _
  · exact sortByLe_pairwise sessionLe htot htrans _
  · exact (sortByLe_perm _ _).trans ((hperm.map parseSession).trans (sortByLe_perm _ _).symm)
  · have hp : ((sortByLe sessionLe (l₁.map parseSession)).map
        (fun s : Session => s.id.getD [])).Perm
          ((l₁.map parseSession).map (fun s : Session => s.id.getD [])) :=
      (sortByLe_perm _ _).map _
    rw [hmapkey l₁] at hp
    exact hp.nodup_iff.mpr hnodup

/-- Witness for C9 on two sessions with distinct identity keys, in
swapped input order. -/
theorem c9_witness :
    assembleSessions [{ g := some [65] }, { g := some [66] }] =
      assembleSessions [{ g := some [66] }, { g := some [65] }] :=
  c9_sort_permutation_invariant
    [{ g := some [65] }, { g := some [66] }]
    [{ g := some [66] }, { g := some [65] }]
    (List.Perm.swap ({ g := some [66] } : RawSession) ({ g := some [65] } : RawSession) [])
    (by decide) (by decide)

/-- One-digit print for values below the base (any positive fuel). -/
theorem natReprAux_single (fuel n : Nat) (hn : n < 16) (hf : 0 < fuel) :
    natReprAux 16 fuel n = [digitUnit n] := by
  cases fuel with
  | zero => omega
  | succ f => simp only [natReprAux, if_pos hn]

/-- A code unit below 256 hex-encodes to exactly the two lowercase digits
the spec describes. -/
theorem hexUnit_two_digits (u : Nat) (h : u < 256) :
    padStart (jsNatToString 16 u) 2 48 = [digitUnit (u / 16 % 16), digitUnit (u % 16)] := by
  by_cases h16 : u < 16
  · have hji : jsNatToString 16 u = [digitUnit u] := by
      unfold jsNatToString
      simp only [natReprAux, if_pos h16]
    rw [hji]
    have h1 : u / 16 = 0 := Nat.div_eq_of_lt h16
    have h2 : u % 16 = u := Nat.mod_eq_of_lt h16
    simp [padStart, h1, h2, digitUnit, List.replicate]
  · have hd : u / 16 < 16 := by omega
    have hji : jsNatToString 16 u = [digitUnit (u / 16), digitUnit (u % 16)] := by
      unfold jsNatToString
      simp only [natReprAux, if_neg h16]
      rw [natReprAux_single u (u / 16) hd (by omega)]
      rfl
    rw [hji]
    have h1 : u / 16 % 16 = u / 16 := Nat.mod_eq_of_lt hd
    simp [padStart, h1, List.replicate]

/-- `stringToHex` is the exactly-two-lowercase-digits encoding on strings
whose code units are all below 256. -/
theorem stringToHex_eq_twoDigit (s : JSString) (h : ∀ u ∈ s, u < 256) :
    stringToHex s = twoDigitHex s := by
  induction s with
  | nil => rfl
  | cons u us ih =>
    unfold stringToHex twoDigitHex
    simp only [List.map_cons, List.flatten_cons]
    rw [hexUnit_two_digits u (h u (List.mem_cons_self u us))]
    have hrest := ih (fun v hv => h v (List.mem_cons_of_mem u hv))
    unfold stringToHex twoDigitHex at hrest
    rw [hrest]

/-- Counterexample for C1 as stated: a session name decoding to the cp1252
substitution character U+20AC (byte 0x80, base64 `"gA=="`) hex-encodes to
four digits, so the URL is not the two-digits-per-character encoding. -/
theorem c1_two_digit_counterexample :
    buildSteamJoinUrl { n := some (jstr (r"gA==")), mm := some (jstr (r"0")) } ≠
      some (STEAM_JOIN_BASE ++
        twoDigitHex (joinUrlArgs { n := some (jstr (r"gA==")), mm := some (jstr (r"0")) })) := by
  decide

/-- Claim C1 (amended): for every joinable session the URL is the fixed
scheme prefix plus the hex encoding of the comma-joined argument string
`N,<nameLen>,<name>,<modListLen>,<modList>,<natAddress>,0,`, where each
character is rendered as its code unit in lowercase hex padded to at
least two digits — exactly two digits whenever every code unit of the
argument string is below 256 (cp1252-substituted characters above 0xFF
produce four digits). -/
theorem c1_join_url (raw : RawSession)
    (hl : raw.l ≠ some 1) (hk : raw.k ≠ some 1) (hmm : parseModIds raw.mm ≠ []) :
    buildSteamJoinUrl raw = some (STEAM_JOIN_BASE ++ stringToHex (joinUrlArgs raw)) ∧
    ((∀ u ∈ joinUrlArgs raw, u < 256) →
      stringToHex (joinUrlArgs raw) = twoDigitHex (joinUrlArgs raw)) := by
  refine ⟨?_, stringToHex_eq_twoDigit _⟩
  unfold buildSteamJoinUrl
  rw [if_neg (by tauto), if_neg hmm]
  have hN : jstr (r"N") = [78] := by decide
  have h0 : jstr (r"0") = [48] := by decide
  unfold joinUrlArgs jsJoin
  simp [hN, h0, List.intersperse, List.flatten, List.append_assoc]

/-- Witness for C1 on a joinable stock session with an empty name. -/
theorem c1_witness :
    buildSteamJoinUrl { mm := some (jstr (r"0")) } =
      some (STEAM_JOIN_BASE ++ stringToHex (joinUrlArgs { mm := some (jstr (r"0")) })) ∧
    stringToHex (joinUrlArgs { mm := some (jstr (r"0")) }) =
      twoDigitHex (joinUrlArgs { mm := some (jstr (r"0")) }) :=
  ⟨(c1_join_url { mm := some (jstr (r"0")) } (by decide) (by decide) (by decide)).1,
   (c1_join_url { mm := some (jstr (r"0")) } (by decide) (by decide) (by decide)).2
     (by decide)⟩

end BZ2
